import Mathlib

/-!
Shallow embedding of the FontForge_Scripts_Collection repository
(convert_font.py, font_cmap_compare.py, font_diff_checker.py,
merge_svg_font.py, optimize_glyph.py) and proofs about the claims of its
specification.

File systems are modelled as the list of existing paths; loaded fonts as
explicit records; console output and generated files as explicit fields of
the result records, so every effect of a script run is visible in its
result value.
-/

/-- Python truthiness of an optional string argument (`if family_name:`):
`None` and the empty string are falsy. -/
def pyTruthy : Option String → Bool
  | none => false
  | some s => s != ""

/-- When `pat` is a leading run of `cs`, the characters after it. -/
def matchRun : List Char → List Char → Option (List Char)
  | [], cs => some cs
  | _ :: _, [] => none
  | p :: ps, c :: cs => if p = c then matchRun ps cs else none

/-- Python `str.replace` on character lists: replace the leftmost
occurrence of `pat`, continue after the replacement, never overlapping.
The fuel argument (instantiated with the string length, an upper bound on
the number of steps for a non-empty pattern) only makes the recursion
structural. -/
def replaceRun (pat rep : List Char) : Nat → List Char → List Char
  | _, [] => []
  | 0, cs => cs
  | fuel + 1, c :: cs =>
    match matchRun pat (c :: cs) with
    | some rest => rep ++ replaceRun pat rep fuel rest
    | none => c :: replaceRun pat rep fuel cs

/-- Python `s.replace(pat, rep)` for a non-empty `pat`. -/
def pyReplace (s pat rep : String) : String :=
  String.mk (replaceRun pat.toList rep.toList s.toList.length s.toList)

/-- Python `s.endswith(suf)`. -/
def pyEndsWith (s suf : String) : Bool :=
  (matchRun suf.toList.reverse s.toList.reverse).isSome

/-- The ASCII whitespace stripped by Python `int` before parsing. -/
def isPySpace (c : Char) : Bool :=
  (c == ' ') || (c == '\t') || (c == '\n') || (c == '\r') ||
  (c == '\x0b') || (c == '\x0c')

/-- Python `str.strip()` on the characters relevant here. -/
def pyStrip (s : String) : String :=
  String.mk (((s.toList.dropWhile isPySpace).reverse.dropWhile isPySpace).reverse)

/-- Insertion step of a stable string sort. -/
def insertStr (x : String) : List String → List String
  | [] => [x]
  | y :: ys => if x ≤ y then x :: y :: ys else y :: insertStr x ys

/-- Python `sorted` on a list of strings (lexicographic, stable). -/
def pySorted : List String → List String
  | [] => []
  | x :: xs => insertStr x (pySorted xs)

/-- Model of `os.path.splitext`: split off the extension at the last dot, provided a
non-dot character occurs before it (so a pure leading-dot name such as
`.bashrc` has no extension). -/
def splitext (s : String) : String × String :=
  let cs := s.toList
  match ((cs.enum.filter (fun p => p.snd = '.')).map (fun p => p.fst)).getLast? with
  | none => (s, "")
  | some i =>
    if (cs.take i).any (fun c => c != '.') then
      (String.mk (cs.take i), String.mk (cs.drop i))
    else (s, "")

/-- The mutable font properties touched by `convert_font.py`
(`setup_font_properties`, source lines 37-78). -/
structure FontProps where
  familyname : Option String := none
  fontname : Option String := none
  fullname : Option String := none
  version : Option String := none
  ascent : Int := 800
  descent : Int := 200
  head_optimized_for_cleartype : Bool := false
  os2_typoascent : Int := 0
  os2_typodescent : Int := 0
  os2_typolinegap : Int := 0
  hhea_ascent : Int := 0
  hhea_descent : Int := 0
  hhea_linegap : Int := 0
  gaspSet : Bool := false
deriving DecidableEq, Repr

/-- Embedding of `setup_font_properties` (convert_font.py lines 37-78): set the naming
fields from `family_name` (fontname with spaces removed), the version from
`version`, then the cleartype flag, the vertical metrics and the gasp
table. -/
def setup_font_properties (font : FontProps)
    (family_name : Option String) (version : Option String) : FontProps :=
  let font :=
    if pyTruthy family_name then
      let f := family_name.getD ""
      { font with
        familyname := some f
        fontname := some (pyReplace f " " "")
        fullname := some f }
    else font
  let font := if pyTruthy version then { font with version := version } else font
  let font := { font with head_optimized_for_cleartype := true }
  let font :=
    { font with
      os2_typoascent := font.ascent
      os2_typodescent := -font.descent
      os2_typolinegap := 0
      hhea_ascent := font.ascent
      hhea_descent := -font.descent
      hhea_linegap := 0 }
  { font with gaspSet := true }

/-- The `generate` flag tuples chosen per target format
(convert_font.py lines 102-113). -/
def generate_flags (format_type : String) : List String :=
  if format_type = "otf" then
    ["opentype", "round", "dummy-dsig", "apple"]
  else if format_type = "ttf" then
    ["opentype", "round", "dummy-dsig", "apple", "short-post", "old-kern"]
  else if format_type = "woff2" then
    ["opentype", "round", "dummy-dsig", "no-flex", "no-hints", "short-post",
      "omit-instructions"]
  else []

/-- One file written by `font.generate`. -/
structure GeneratedFile where
  path : String
  props : FontProps
  flags : List String
deriving DecidableEq, Repr

/-- The observable outcome of one `convert_font` call: the returned boolean,
the files written to disk, and the diagnostics printed to the console. -/
structure ConvResult where
  ok : Bool
  written : List GeneratedFile
  errors : List String
  logs : List String
deriving DecidableEq, Repr

/-- Embedding of `convert_font` (convert_font.py lines 80-131): check the input file
exists (a missing file raises `FileNotFoundError`, caught by the broad
handler which prints the diagnostic and returns `False`), open the font,
default the output path to the input basename plus the format extension,
apply `setup_font_properties`, and generate the output with the
format-specific flags. The parameter order (with `optimization` fourth)
is the order of the Python signature. -/
def convert_font (fs : List String) (fonts : String → FontProps)
    (input_path : String) (output_path : Option String) (format_type : String)
    (optimization : Option String := some "default")
    (family_name : Option String := none) (version : Option String := none) :
    ConvResult :=
  if input_path ∈ fs then
    let font := fonts input_path
    let out :=
      if pyTruthy output_path then output_path.getD ""
      else (splitext input_path).fst ++ "." ++ format_type
    let font := setup_font_properties font family_name version
    { ok := true
      written := [{ path := out, props := font, flags := generate_flags format_type }]
      errors := []
      logs := ["loading " ++ input_path,
               "converting with mode " ++ optimization.getD "None"] }
  else
    { ok := false
      written := []
      errors := ["convert error: file not found: " ++ input_path]
      logs := [] }

/-- The parsed command-line arguments of convert_font.py. -/
structure ConvArgs where
  input_font : String
  output : Option String := none
  format : String := "woff2"
  family_name : Option String := none
  version : Option String := none
deriving DecidableEq, Repr

/-- The `__main__` block of convert_font.py (lines 158-172): when the input
path is truthy it calls `convert_font(args.input_font, args.output,
args.format, args.family_name, args.version)` — five positional arguments,
so `args.family_name` lands in the `optimization` parameter and
`args.version` in the `family_name` parameter, and `version` stays `None`.
The script then waits for a key press and finishes, so the process exit
status (second component) is 0 either way; a falsy input path prints the
usage text and calls no conversion (`none`). -/
def convert_main (fs : List String) (fonts : String → FontProps)
    (a : ConvArgs) : Option ConvResult × Nat :=
  if a.input_font = "" then
    (none, 0)
  else
    (some (convert_font fs fonts a.input_font a.output a.format
      a.family_name a.version none), 0)

/-- The `SUPPORTED_FORMATS` keys (convert_font.py lines 135-142). -/
def SUPPORTED_FORMATS : List String := ["ttf", "otf", "woff", "woff2", "eot", "svg"]

/-- The argparse handling of the `-f` (`--format`) flag
(convert_font.py lines 147-152):
a missing flag defaults to `woff2`; a value outside `choices` makes
argparse exit with status 2 before anything else runs. -/
def parse_format (arg : Option String) : Except Nat String :=
  match arg with
  | none => Except.ok "woff2"
  | some s => if s ∈ SUPPORTED_FORMATS then Except.ok s else Except.error 2

/-- Whole-script run of convert_font.py: argument parsing followed by
`__main__`; a parse failure is `Except.error exitCode` and no conversion is
attempted. -/
def convert_script (fs : List String) (fonts : String → FontProps)
    (input : String) (output : Option String) (fmtArg : Option String)
    (fam ver : Option String) : Except Nat (Option ConvResult × Nat) :=
  match parse_format fmtArg with
  | Except.error c => Except.error c
  | Except.ok fmt =>
    Except.ok (convert_main fs fonts
      { input_font := input, output := output, format := fmt,
        family_name := fam, version := ver })

/-- A fontTools `TTFont` as seen by the comparison scripts: `none` when the
font has no `cmap` table, otherwise the list of cmap subtables, each
identified with the set of its mapping's keys. -/
structure TTFontData where
  cmapTables : Option (List (Finset Nat))
deriving DecidableEq

/-- Embedding of `get_unicode_codepoints` (font_cmap_compare.py lines 6-23,
font_diff_checker.py lines 7-19): start from the empty set and union in the
keys of every cmap subtable; a missing `cmap` table yields the empty set. -/
def get_unicode_codepoints (f : TTFontData) : Finset Nat :=
  match f.cmapTables with
  | none => ∅
  | some ts => ts.foldl (fun acc t => acc ∪ t) ∅

/-- The observable outcome of the cmap-difference analysis: the two
difference sets and whether the no-difference message is printed. -/
structure CmapCompareResult where
  added : Finset Nat
  removed : Finset Nat
  noDiffMessage : Bool
deriving DecidableEq

/-- The cmap comparison shared by `compare_fonts_cmap`
(font_cmap_compare.py lines 54-83) and `compare_fonts`
(font_diff_checker.py lines 70-79, 157): added is new minus old, removed is
old minus new, and the celebratory message is printed when both difference
sets are falsy. -/
def compare_fonts_cmap (oldF newF : TTFontData) : CmapCompareResult :=
  let old_codepoints := get_unicode_codepoints oldF
  let new_codepoints := get_unicode_codepoints newF
  let added_codepoints := new_codepoints \ old_codepoints
  let removed_codepoints := old_codepoints \ new_codepoints
  { added := added_codepoints
    removed := removed_codepoints
    noDiffMessage := decide (added_codepoints = ∅) && decide (removed_codepoints = ∅) }

/-- A whole run of a comparison script: the files actually loaded, the
analysis result (`none` when the run returned early), and whether a
missing-file diagnostic was printed. -/
structure CompareRun where
  loaded : List String
  result : Option CmapCompareResult
  missingReported : Bool
deriving DecidableEq

/-- Embedding of `compare_fonts_cmap` at path level (font_cmap_compare.py lines 25-83):
the two existence checks come before any extraction, so a missing path
means nothing is loaded and nothing compared. -/
def compare_fonts_cmap_run (fs : List String) (fload : String → TTFontData)
    (old_font_path new_font_path : String) : CompareRun :=
  if old_font_path ∉ fs then
    { loaded := [], result := none, missingReported := true }
  else if new_font_path ∉ fs then
    { loaded := [], result := none, missingReported := true }
  else
    { loaded := [old_font_path, new_font_path]
      result := some (compare_fonts_cmap (fload old_font_path) (fload new_font_path))
      missingReported := false }

/-- The cmap-difference portion of `compare_fonts`
(font_diff_checker.py lines 34-79): the same existence checks, then both
fonts are loaded and the same set differences computed. The later outline
and metric comparisons of that function are not modelled here; no claim
touches them. -/
def compare_fonts_run (fs : List String) (fload : String → TTFontData)
    (old_font_path new_font_path : String) : CompareRun :=
  if old_font_path ∉ fs then
    { loaded := [], result := none, missingReported := true }
  else if new_font_path ∉ fs then
    { loaded := [], result := none, missingReported := true }
  else
    { loaded := [old_font_path, new_font_path]
      result := some (compare_fonts_cmap (fload old_font_path) (fload new_font_path))
      missingReported := false }

/-- Hexadecimal digit test, as accepted by Python `int(s, 16)`. -/
def isHexDigitChar (c : Char) : Bool :=
  ('0' ≤ c && c ≤ '9') || ('a' ≤ c && c ≤ 'f') || ('A' ≤ c && c ≤ 'F')

/-- Value of a hexadecimal digit. -/
def hexVal (c : Char) : Nat :=
  if c ≤ '9' then c.toNat - '0'.toNat
  else if c ≤ 'F' then c.toNat - 'A'.toNat + 10
  else c.toNat - 'a'.toNat + 10

/-- Continue a hexadecimal digit run: single underscores are allowed between
digits, never doubled, leading or trailing. -/
def hexDigitsRun : List Char → Nat → Option Nat
  | [], acc => some acc
  | '_' :: c :: rest, acc =>
    if isHexDigitChar c then hexDigitsRun rest (acc * 16 + hexVal c) else none
  | c :: rest, acc =>
    if isHexDigitChar c then hexDigitsRun rest (acc * 16 + hexVal c) else none

/-- A non-empty hexadecimal digit run. -/
def parseHexBody : List Char → Option Nat
  | [] => none
  | c :: rest => if isHexDigitChar c then hexDigitsRun rest (hexVal c) else none

/-- Digits after a `0x` base marker: one underscore may directly follow the
marker. -/
def parseAfterBase : List Char → Option Nat
  | '_' :: rest => parseHexBody rest
  | cs => parseHexBody cs

/-- Magnitude part of Python `int(s, 16)`: an optional `0x` or `0X` marker,
then digits. -/
def parseHexUnsigned : List Char → Option Nat
  | '0' :: 'x' :: rest => parseAfterBase rest
  | '0' :: 'X' :: rest => parseAfterBase rest
  | cs => parseHexBody cs

/-- Optional sign in front of the magnitude. -/
def parseHexSigned : List Char → Option Int
  | '+' :: rest => (parseHexUnsigned rest).map Int.ofNat
  | '-' :: rest => (parseHexUnsigned rest).map (fun n => -(n : Int))
  | cs => (parseHexUnsigned cs).map Int.ofNat

/-- Python `int(s, 16)`: surrounding whitespace is stripped, then an
optional sign, an optional `0x` marker and a digit run with single
underscores; `none` models the `ValueError`. -/
def int16? (s : String) : Option Int :=
  parseHexSigned (pyStrip s).toList

/-- The codepoint merge_svg_font.py derives from a filename
(line 45-46): delete every occurrence of `u`, delete every occurrence of
`.svg`, parse the remainder as hexadecimal. -/
def svg_codepoint (filename : String) : Option Int :=
  int16? (pyReplace (pyReplace filename "u" "") ".svg" "")

/-- The per-file loop of `create_svg_font` (merge_svg_font.py lines 39-67):
skip names not ending in `.svg`; on a parse failure (`ValueError`) count an
error; when any of the glyph operations (`createChar`, `importOutlines`,
`removeOverlap`, `simplify`, `round`) raises — modelled by the `glyphOk`
oracle — count an error too; otherwise count the file as processed and
record the created glyph. Returns (processed, errors, glyphs). -/
def merge_loop (glyphOk : String → Bool) :
    List String → Nat × Nat × List (Int × String)
  | [] => (0, 0, [])
  | f :: rest =>
    let done := merge_loop glyphOk rest
    if pyEndsWith f ".svg" then
      match svg_codepoint f with
      | some v =>
        if glyphOk f then (done.1 + 1, done.2.1, (v, f) :: done.2.2)
        else (done.1, done.2.1 + 1, done.2.2)
      | none => (done.1, done.2.1 + 1, done.2.2)
    else done

/-- The outcome of a successful `create_svg_font` run. -/
structure MergeResult where
  processed : Nat
  errors : Nat
  glyphs : List (Int × String)
  written : List String
deriving DecidableEq

/-- Embedding of `create_svg_font` (merge_svg_font.py lines 15-84): a missing input
directory raises `FileNotFoundError`, the outer handler prints the message
and the script does `sys.exit(1)`; otherwise the directory listing is
sorted, each `.svg` file handled by the per-file loop, and the font
generated once (a failing `generate`, modelled by `genOk`, also reaches the
outer handler and exits 1). -/
def create_svg_font (dirExists : Bool) (files : List String)
    (glyphOk : String → Bool) (genOk : Bool) (output_font : String) :
    Except Nat MergeResult :=
  if dirExists then
    let lp := merge_loop glyphOk (pySorted files)
    if genOk then
      Except.ok
        { processed := lp.1, errors := lp.2.1, glyphs := lp.2.2,
          written := [output_font] }
    else Except.error 1
  else Except.error 1

/-- The library operations invoked on one glyph by
`GlyphProcessor.process_glyph` (optimize_glyph.py lines 106-132) and its
extension pass `optimize_glyph_extension` (lines 134-148), one tag per
source call site. -/
inductive GlyphStep where
  | processCompound
  | simplifyInitial
  | lineEndpoints
  | simplifyMain
  | canonicalContours
  | canonicalStart
  | removeOverlapStep
  | correctDirectionStep
  | simplifyAgain
  | roundStep
  | autoHintStep
  | extSimplify
  | extWidthRound
  | extBalance
  | extAutoHint
  | extSimplifyStart
  | extCluster
  | extRemoveOverlap
  | extSimplifyFinal
  | extRound
deriving DecidableEq, Repr

/-- Embedding of `optimize_glyph_extension` (optimize_glyph.py lines 134-148) as its
trace of operations, in source order. -/
def optimize_glyph_extension_steps : List GlyphStep :=
  [GlyphStep.extSimplify, GlyphStep.extWidthRound, GlyphStep.extBalance,
   GlyphStep.extAutoHint, GlyphStep.extSimplifyStart, GlyphStep.extCluster,
   GlyphStep.extRemoveOverlap, GlyphStep.extSimplifyFinal, GlyphStep.extRound]

/-- Embedding of `process_glyph` (optimize_glyph.py lines 106-132) as its trace of
operations, in source order, ending with the extension pass. -/
def process_glyph_steps : List GlyphStep :=
  [GlyphStep.processCompound, GlyphStep.simplifyInitial,
   GlyphStep.lineEndpoints, GlyphStep.simplifyMain,
   GlyphStep.canonicalContours, GlyphStep.canonicalStart,
   GlyphStep.removeOverlapStep, GlyphStep.correctDirectionStep,
   GlyphStep.simplifyAgain, GlyphStep.roundStep, GlyphStep.autoHintStep]
  ++ optimize_glyph_extension_steps

/-- The per-glyph loop of `FontOptimizer.process_font`
(optimize_glyph.py lines 237-245): each glyph is processed in order; an
exception after `k` steps of a glyph — modelled by `glyphFail g = some k` —
is caught, a warning is logged and the loop continues with the next glyph.
Returns the trace of (glyph, step) pairs and the number of warnings. -/
def process_font_loop (glyphFail : Nat → Option Nat) :
    List Nat → List (Nat × GlyphStep) × Nat
  | [] => ([], 0)
  | g :: rest =>
    let done := process_font_loop glyphFail rest
    match glyphFail g with
    | none => (process_glyph_steps.map (fun s => (g, s)) ++ done.1, done.2)
    | some k =>
      ((process_glyph_steps.take k).map (fun s => (g, s)) ++ done.1, done.2 + 1)

/-- The outcome of a successful `FontOptimizer.process_font` run. -/
structure OptRun where
  trace : List (Nat × GlyphStep)
  warnings : Nat
  written : List String
deriving DecidableEq, Repr

/-- Output path chosen by `FontOptimizer._save_font`
(optimize_glyph.py lines 257-258). -/
def optimize_output_name (input_file : String) : String :=
  (splitext input_file).fst ++ "_merge_glyphs" ++ (splitext input_file).snd

/-- Embedding of `FontOptimizer.process_font` (optimize_glyph.py lines 218-267):
`fontforge.open` failure (`font = none`) and an empty glyph list both
return `None`; otherwise every glyph goes through the per-glyph loop and
`_save_font` generates exactly one output file (a failing `generate`,
modelled by `saveOk = false`, logs the error and returns `None`). -/
def process_font (glyphFail : Nat → Option Nat) (saveOk : Bool)
    (input_file : String) : Option (List Nat) → Option OptRun
  | none => none
  | some glyphs =>
    if glyphs.length = 0 then none
    else
      let lp := process_font_loop glyphFail glyphs
      if saveOk then
        some { trace := lp.1, warnings := lp.2,
               written := [optimize_output_name input_file] }
      else none

/-- Python `f"U+{cp:04X}"`: uppercase hexadecimal, zero-padded to at least
four digits. -/
def formatCp (cp : Nat) : String :=
  let h := (Nat.toDigits 16 cp).map Char.toUpper
  "U+" ++ String.mk (List.replicate (4 - h.length) '0' ++ h)

/-- Python `", ".join(...)`. -/
def joinComma : List String → String
  | [] => ""
  | [x] => x
  | x :: y :: rest => x ++ ", " ++ joinComma (y :: rest)

namespace font_cmap_compare

/-- Embedding of `format_codepoints` (font_cmap_compare.py lines 57-68): empty set gives
`无`; otherwise sort ascending; more than 20 codepoints give the first ten,
an ellipsis marker with the remaining count, and the last ten. -/
def format_codepoints (codepoint_set : Finset Nat) : String :=
  if codepoint_set = ∅ then "无"
  else
    let sorted_codepoints := codepoint_set.sort (· ≤ ·)
    if sorted_codepoints.length > 20 then
      joinComma ((sorted_codepoints.take 10).map formatCp)
        ++ ", ... (" ++ toString (sorted_codepoints.length - 20) ++ "更多), "
        ++ joinComma ((sorted_codepoints.drop (sorted_codepoints.length - 10)).map formatCp)
    else
      joinComma (sorted_codepoints.map formatCp)

end font_cmap_compare

namespace font_diff_checker

/-- Embedding of `format_codepoints` (font_diff_checker.py lines 21-32), the copy-pasted
twin of the helper in font_cmap_compare.py. -/
def format_codepoints (codepoint_set : Finset Nat) : String :=
  if codepoint_set = ∅ then "无"
  else
    let sorted_codepoints := codepoint_set.sort (· ≤ ·)
    if sorted_codepoints.length > 20 then
      joinComma ((sorted_codepoints.take 10).map formatCp)
        ++ ", ... (" ++ toString (sorted_codepoints.length - 20) ++ "更多), "
        ++ joinComma ((sorted_codepoints.drop (sorted_codepoints.length - 10)).map formatCp)
    else
      joinComma (sorted_codepoints.map formatCp)

end font_diff_checker

/-- A directory entry that merge_svg_font.py counts as processed: ends in
`.svg`, its derived codepoint parses, and the glyph operations succeed. -/
def svgProcessedOk (glyphOk : String → Bool) (f : String) : Bool :=
  pyEndsWith f ".svg" && ((svg_codepoint f).isSome && glyphOk f)

/-- A directory entry that merge_svg_font.py counts as an error: ends in
`.svg` but its codepoint fails to parse or a glyph operation raises. -/
def svgFailed (glyphOk : String → Bool) (f : String) : Bool :=
  pyEndsWith f ".svg" && !((svg_codepoint f).isSome && glyphOk f)

/-- The remainder described by the claim wording for C9: delete every
occurrence of `u`, then only the suffix `.svg` (not every occurrence). -/
def claim_remainder (f : String) : String :=
  let t := pyReplace f "u" ""
  if pyEndsWith t ".svg" then String.mk (t.toList.take (t.toList.length - 4))
  else t

theorem mem_foldl_union {x : Nat} : ∀ (ts : List (Finset Nat)) (a : Finset Nat),
    x ∈ ts.foldl (fun acc t => acc ∪ t) a ↔ x ∈ a ∨ ∃ t ∈ ts, x ∈ t := by
  intro ts
  induction ts with
  | nil => intro a; simp
  | cons t ts ih =>
    intro a
    rw [List.foldl_cons, ih (a ∪ t)]
    simp [Finset.mem_union, or_assoc]

/-- C1: with a `--family-name` value and a `--version` value on the command
line, the generated font's familyname, fullname and fontname end up set to
the `--version` value (never to the family name) and the font's version is
not set at all, because `__main__` passes the two options positionally into
`convert_font`'s `optimization` and `family_name` parameters; the helper
`setup_font_properties` itself would apply them as the claim states. -/
theorem c1_family_name_dropped :
    (((convert_main ["in.ttf"] (fun _ => {})
        { input_font := "in.ttf", output := none, format := "woff2",
          family_name := some "Test Font", version := some "1.0" }).1.map
      (fun r => r.written.map
        (fun g => (g.props.familyname, g.props.fullname, g.props.fontname, g.props.version))))
      = some [(some "1.0", some "1.0", some "1.0", none)]) ∧
    (setup_font_properties {} (some "Test Font") (some "1.0")).familyname
      = some "Test Font" ∧
    (setup_font_properties {} (some "Test Font") (some "1.0")).fullname
      = some "Test Font" ∧
    (setup_font_properties {} (some "Test Font") (some "1.0")).fontname
      = some "TestFont" ∧
    (setup_font_properties {} (some "Test Font") (some "1.0")).version
      = some "1.0" := by
  refine ⟨by decide, by decide, by decide, by decide, by decide⟩

/-- C2: for two loaded fonts the comparison takes each font's codepoint set
to be the union of the cmap keys over all cmap subtables, reports added as
new minus old and removed as old minus new, and prints the no-difference
message exactly when the two codepoint sets are equal. -/
theorem c2_cmap_diff : ∀ (oldF newF : TTFontData),
    (∀ x, x ∈ get_unicode_codepoints oldF ↔
      ∃ ts, oldF.cmapTables = some ts ∧ ∃ t ∈ ts, x ∈ t) ∧
    (∀ x, x ∈ get_unicode_codepoints newF ↔
      ∃ ts, newF.cmapTables = some ts ∧ ∃ t ∈ ts, x ∈ t) ∧
    (compare_fonts_cmap oldF newF).added
      = get_unicode_codepoints newF \ get_unicode_codepoints oldF ∧
    (compare_fonts_cmap oldF newF).removed
      = get_unicode_codepoints oldF \ get_unicode_codepoints newF ∧
    ((compare_fonts_cmap oldF newF).noDiffMessage = true ↔
      get_unicode_codepoints newF = get_unicode_codepoints oldF) := by
  intro oldF newF
  refine ⟨?_, ?_, rfl, rfl, ?_⟩
  · intro x
    cases h : oldF.cmapTables with
    | none => simp [get_unicode_codepoints, h]
    | some ts => simp [get_unicode_codepoints, h, mem_foldl_union]
  · intro x
    cases h : newF.cmapTables with
    | none => simp [get_unicode_codepoints, h]
    | some ts => simp [get_unicode_codepoints, h, mem_foldl_union]
  · show (decide _ && decide _) = true ↔ _
    rw [Bool.and_eq_true, decide_eq_true_iff, decide_eq_true_iff,
      Finset.sdiff_eq_empty_iff_subset, Finset.sdiff_eq_empty_iff_subset]
    exact ⟨fun h => Finset.Subset.antisymm h.1 h.2,
      fun h => ⟨h ▸ Finset.Subset.refl _, h ▸ Finset.Subset.refl _⟩⟩

/-- C5: the `-f` value is accepted exactly when it is one of the six
supported formats; any other value makes the script stop at argument
parsing with exit status 2 and no conversion is attempted. -/
theorem c5_format_choices : ∀ (s : String) (fs : List String)
    (fonts : String → FontProps) (input : String) (output : Option String)
    (fam ver : Option String),
    ((parse_format (some s)).isOk = true ↔
      s ∈ ["ttf", "otf", "woff", "woff2", "eot", "svg"]) ∧
    (s ∉ SUPPORTED_FORMATS →
      convert_script fs fonts input output (some s) fam ver = Except.error 2) := by
  intro s fs fonts input output fam ver
  constructor
  · show (parse_format (some s)).isOk = true ↔ s ∈ SUPPORTED_FORMATS
    unfold parse_format
    by_cases h : s ∈ SUPPORTED_FORMATS <;> simp [h, Except.isOk, Except.toBool]
  · intro h
    unfold convert_script parse_format
    simp [h]

/-- Witness for C5 at the concrete rejected value `pdf`. -/
theorem c5_format_choices_witness :
    convert_script [] (fun _ => {}) "in.ttf" none (some "pdf") none none
      = Except.error 2 :=
  (c5_format_choices "pdf" [] (fun _ => {}) "in.ttf" none none none).2 (by decide)

/-- C8: the copy of `format_codepoints` in font_cmap_compare.py and the one
in font_diff_checker.py compute the same function. -/
theorem c8_format_codepoints_copies_agree :
    ∀ s : Finset Nat,
      font_cmap_compare.format_codepoints s = font_diff_checker.format_codepoints s :=
  fun _ => rfl

theorem process_font_loop_append_eq (fail : Nat → Option Nat) :
    ∀ (pre post : List Nat),
      process_font_loop fail (pre ++ post)
        = ((process_font_loop fail pre).1 ++ (process_font_loop fail post).1,
           (process_font_loop fail pre).2 + (process_font_loop fail post).2) := by
  intro pre post
  induction pre with
  | nil => simp [process_font_loop]
  | cons g rest ih =>
    simp only [List.cons_append, process_font_loop, ih]
    cases fail g
    · simp [ih, List.append_assoc]
    · simp [ih, List.append_assoc]
      omega

theorem process_font_loop_append (fail : Nat → Option Nat) :
    ∀ (pre post : List Nat),
      (process_font_loop fail (pre ++ post)).1
        = (process_font_loop fail pre).1 ++ (process_font_loop fail post).1 ∧
      (process_font_loop fail (pre ++ post)).2
        = (process_font_loop fail pre).2 + (process_font_loop fail post).2 := by
  intro pre post
  rw [process_font_loop_append_eq fail pre post]
  exact ⟨rfl, rfl⟩

theorem process_font_loop_all_ok (fail : Nat → Option Nat) :
    ∀ (gs : List Nat), (∀ g ∈ gs, fail g = none) →
      process_font_loop fail gs
        = (gs.flatMap (fun g => process_glyph_steps.map (fun s => (g, s))), 0) := by
  intro gs
  induction gs with
  | nil => intro _; rfl
  | cons g rest ih =>
    intro h
    unfold process_font_loop
    rw [h g (List.mem_cons_self g rest), ih (fun x hx => h x (List.mem_cons_of_mem g hx))]
    rfl

/-- C3 counterexample: a failed conversion (missing input file) makes
convert_font.py print the diagnostic, return `False` — and the script then
finishes with exit status 0, not a non-zero one, and there is no next item
it continues with. -/
theorem c3_exit_status_counterexample :
    ((convert_main [] (fun _ => {}) { input_font := "missing.ttf" }).1.map
      (fun r => r.ok)) = some false ∧
    ((convert_main [] (fun _ => {}) { input_font := "missing.ttf" }).1.map
      (fun r => r.errors))
      = some ["convert error: file not found: missing.ttf"] ∧
    (convert_main [] (fun _ => {}) { input_font := "missing.ttf" }).2 = 0 := by
  refine ⟨by decide, by decide, by decide⟩

/-- C3 amended: every operation is wrapped in a broad handler that prints a
diagnostic, after which the script continues with the next glyph/file or
stops — but not necessarily with a non-zero exit status: convert_font.py
returns normally (exit 0) after a failed conversion, merge_svg_font.py
exits 1, and optimize_glyph.py's per-glyph handler lets all remaining
glyphs be processed. -/
theorem c3_amended_error_handling :
    ∀ (fs : List String) (fonts : String → FontProps) (a : ConvArgs)
      (files : List String) (glyphOk : String → Bool) (genOk : Bool)
      (out : String) (fail : Nat → Option Nat) (pre post : List Nat),
    (a.input_font ≠ "" → a.input_font ∉ fs →
      ((convert_main fs fonts a).1.map (fun r => r.ok) = some false ∧
       (convert_main fs fonts a).1.map (fun r => r.errors)
         = some ["convert error: file not found: " ++ a.input_font] ∧
       (convert_main fs fonts a).2 = 0)) ∧
    (create_svg_font false files glyphOk genOk out = Except.error 1) ∧
    ((process_font_loop fail (pre ++ post)).1
       = (process_font_loop fail pre).1 ++ (process_font_loop fail post).1 ∧
     (process_font_loop fail (pre ++ post)).2
       = (process_font_loop fail pre).2 + (process_font_loop fail post).2) := by
  intro fs fonts a files glyphOk genOk out fail pre post
  refine ⟨?_, ?_, process_font_loop_append fail pre post⟩
  · intro h1 h2
    unfold convert_main convert_font
    rw [if_neg h1, if_neg h2]
    exact ⟨rfl, rfl, rfl⟩
  · unfold create_svg_font
    rfl

/-- Witness for C3's amended claim at concrete inputs: a missing input font
for convert_font.py, a missing directory for merge_svg_font.py, and an
optimize_glyph.py run where the first glyph fails after three steps. -/
theorem c3_amended_witness :
    ((convert_main [] (fun _ => {}) { input_font := "f.ttf" }).1.map
       (fun r => r.ok) = some false ∧
     (convert_main [] (fun _ => {}) { input_font := "f.ttf" }).1.map
       (fun r => r.errors) = some ["convert error: file not found: " ++ "f.ttf"] ∧
     (convert_main [] (fun _ => {}) { input_font := "f.ttf" }).2 = 0) ∧
    (create_svg_font false [] (fun _ => true) true "o.svg" = Except.error 1) ∧
    ((process_font_loop (fun _ => some 3) ([1] ++ [2])).1
       = (process_font_loop (fun _ => some 3) [1]).1
         ++ (process_font_loop (fun _ => some 3) [2]).1 ∧
     (process_font_loop (fun _ => some 3) ([1] ++ [2])).2
       = (process_font_loop (fun _ => some 3) [1]).2
         + (process_font_loop (fun _ => some 3) [2]).2) := by
  have h := c3_amended_error_handling [] (fun _ => {}) { input_font := "f.ttf" }
    [] (fun _ => true) true "o.svg" (fun _ => some 3) [1] [2]
  exact ⟨h.1 (by decide) (by decide), h.2.1, h.2.2⟩

/-- C4: for a font that opens and holds at least one glyph, and whose
glyph operations raise no exception, every glyph gets the same fixed
sequence of cleanup operations, in the font's glyph iteration order:
compound-reference handling, the initial simplify, endpoint processing,
the main simplify, canonicalContours, canonicalStart, removeOverlap,
correctDirection, another simplify, round, autoHint, and then the steps of
the extension pass. -/
theorem c4_fixed_pipeline :
    ∀ (glyphs : List Nat) (fail : Nat → Option Nat) (input : String),
    glyphs ≠ [] → (∀ g ∈ glyphs, fail g = none) →
    process_font fail true input (some glyphs)
      = some { trace := glyphs.flatMap
                 (fun g => process_glyph_steps.map (fun s => (g, s))),
               warnings := 0,
               written := [optimize_output_name input] } ∧
    process_glyph_steps
      = [GlyphStep.processCompound, GlyphStep.simplifyInitial,
         GlyphStep.lineEndpoints, GlyphStep.simplifyMain,
         GlyphStep.canonicalContours, GlyphStep.canonicalStart,
         GlyphStep.removeOverlapStep, GlyphStep.correctDirectionStep,
         GlyphStep.simplifyAgain, GlyphStep.roundStep, GlyphStep.autoHintStep,
         GlyphStep.extSimplify, GlyphStep.extWidthRound, GlyphStep.extBalance,
         GlyphStep.extAutoHint, GlyphStep.extSimplifyStart, GlyphStep.extCluster,
         GlyphStep.extRemoveOverlap, GlyphStep.extSimplifyFinal,
         GlyphStep.extRound] := by
  intro glyphs fail input h1 h2
  refine ⟨?_, rfl⟩
  have hlen : ¬ glyphs.length = 0 := by
    simpa [List.length_eq_zero] using h1
  simp only [process_font]
  rw [if_neg hlen, process_font_loop_all_ok fail glyphs h2]
  simp

/-- Witness for C4 at a concrete two-glyph font. -/
theorem c4_fixed_pipeline_witness :
    process_font (fun _ => none) true "font.ttf" (some [3, 7])
      = some { trace := [3, 7].flatMap
                 (fun g => process_glyph_steps.map (fun s => (g, s))),
               warnings := 0,
               written := [optimize_output_name "font.ttf"] } :=
  (c4_fixed_pipeline [3, 7] (fun _ => none) "font.ttf" (by decide)
    (fun _ _ => rfl)).1

/-- C6: a missing input path makes convert_font report the error and return
`False` with no output file, and makes both comparison scripts report the
missing file and return before loading or comparing anything — for the old
path and for the new path alike. -/
theorem c6_missing_input :
    ∀ (fs : List String) (fonts : String → FontProps)
      (fload : String → TTFontData) (p q : String) (output : Option String)
      (fmt : String) (opt fam ver : Option String),
    (p ∉ fs →
      (convert_font fs fonts p output fmt opt fam ver).ok = false ∧
      (convert_font fs fonts p output fmt opt fam ver).written = [] ∧
      (convert_font fs fonts p output fmt opt fam ver).errors ≠ []) ∧
    (p ∉ fs →
      compare_fonts_cmap_run fs fload p q
        = { loaded := [], result := none, missingReported := true } ∧
      compare_fonts_run fs fload p q
        = { loaded := [], result := none, missingReported := true }) ∧
    (q ∉ fs →
      compare_fonts_cmap_run fs fload p q
        = { loaded := [], result := none, missingReported := true } ∧
      compare_fonts_run fs fload p q
        = { loaded := [], result := none, missingReported := true }) := by
  intro fs fonts fload p q output fmt opt fam ver
  refine ⟨?_, ?_, ?_⟩
  · intro hp
    unfold convert_font
    rw [if_neg hp]
    exact ⟨rfl, rfl, by simp⟩
  · intro hp
    unfold compare_fonts_cmap_run compare_fonts_run
    rw [if_pos hp]
    exact ⟨rfl, rfl⟩
  · intro hq
    unfold compare_fonts_cmap_run compare_fonts_run
    by_cases hp : p ∉ fs
    · rw [if_pos hp]
      exact ⟨rfl, rfl⟩
    · rw [if_neg hp, if_pos hq]
      exact ⟨rfl, rfl⟩

/-- Witness for C6 at concrete paths missing from a concrete file
system. -/
theorem c6_missing_input_witness :
    ((convert_font ["present.ttf"] (fun _ => {}) "absent.ttf" none "woff2"
        none none none).ok = false ∧
      (convert_font ["present.ttf"] (fun _ => {}) "absent.ttf" none "woff2"
        none none none).written = [] ∧
      (convert_font ["present.ttf"] (fun _ => {}) "absent.ttf" none "woff2"
        none none none).errors ≠ []) ∧
    (compare_fonts_cmap_run ["present.ttf"] (fun _ => { cmapTables := none })
        "absent.ttf" "gone.ttf"
      = { loaded := [], result := none, missingReported := true } ∧
     compare_fonts_run ["present.ttf"] (fun _ => { cmapTables := none })
        "absent.ttf" "gone.ttf"
      = { loaded := [], result := none, missingReported := true }) ∧
    (compare_fonts_cmap_run ["present.ttf"] (fun _ => { cmapTables := none })
        "present.ttf" "gone.ttf"
      = { loaded := [], result := none, missingReported := true } ∧
     compare_fonts_run ["present.ttf"] (fun _ => { cmapTables := none })
        "present.ttf" "gone.ttf"
      = { loaded := [], result := none, missingReported := true }) := by
  have h1 := c6_missing_input ["present.ttf"] (fun _ => {})
    (fun _ => { cmapTables := none }) "absent.ttf" "gone.ttf" none "woff2"
    none none none
  have h2 := c6_missing_input ["present.ttf"] (fun _ => {})
    (fun _ => { cmapTables := none }) "present.ttf" "gone.ttf" none "woff2"
    none none none
  exact ⟨h1.1 (by decide), h1.2.1 (by decide), h2.2.2 (by decide)⟩

/-- C7: a successful run of each converting script writes exactly one
output font file; every other effect in the model is console text (the
`written` fields list all files a run generates). -/
theorem c7_single_output :
    ∀ (fs : List String) (fonts : String → FontProps) (a : ConvArgs)
      (r : ConvResult) (fail : Nat → Option Nat) (saveOk : Bool)
      (input : String) (font : Option (List Nat)) (run : OptRun)
      (files : List String) (glyphOk : String → Bool) (genOk : Bool)
      (out : String) (m : MergeResult),
    ((convert_main fs fonts a).1 = some r → r.ok = true →
      r.written.length = 1) ∧
    (process_font fail saveOk input font = some run →
      run.written.length = 1) ∧
    (create_svg_font true files glyphOk genOk out = Except.ok m →
      m.written.length = 1) := by
  intro fs fonts a r fail saveOk input font run files glyphOk genOk out m
  refine ⟨?_, ?_, ?_⟩
  · intro hsome hok
    unfold convert_main at hsome
    by_cases he : a.input_font = ""
    · rw [if_pos he] at hsome
      exact absurd hsome (by simp)
    · rw [if_neg he] at hsome
      have hr : convert_font fs fonts a.input_font a.output a.format
          a.family_name a.version none = r := Option.some.inj hsome
      rw [← hr] at hok ⊢
      unfold convert_font at hok ⊢
      by_cases hin : a.input_font ∈ fs
      · rw [if_pos hin]
        rfl
      · rw [if_neg hin] at hok
        exact absurd hok (by simp)
  · intro hsome
    cases font with
    | none => exact absurd hsome (by simp [process_font])
    | some glyphs =>
      simp only [process_font] at hsome
      by_cases hlen : glyphs.length = 0
      · rw [if_pos hlen] at hsome
        exact absurd hsome (by simp)
      · rw [if_neg hlen] at hsome
        cases saveOk with
        | false => exact absurd hsome (by simp)
        | true =>
          have : { trace := (process_font_loop fail glyphs).1,
                   warnings := (process_font_loop fail glyphs).2,
                   written := [optimize_output_name input] } = run :=
            Option.some.inj hsome
          rw [← this]
          rfl
  · intro hok
    unfold create_svg_font at hok
    cases genOk with
    | false => exact absurd hok (by simp)
    | true =>
      have : (Except.ok
          { processed := (merge_loop glyphOk (pySorted files)).1,
            errors := (merge_loop glyphOk (pySorted files)).2.1,
            glyphs := (merge_loop glyphOk (pySorted files)).2.2,
            written := [out] } : Except Nat MergeResult) = Except.ok m := by
        simpa using hok
      rw [← Except.ok.inj this]
      rfl

/-- Witness for C7: one successful run of each of the three scripts. -/
theorem c7_single_output_witness :
    (convert_font ["in.ttf"] (fun _ => {}) "in.ttf" none "woff2"
        none none none).written.length = 1 ∧
    ({ trace := (process_font_loop (fun _ => none) [0]).1,
       warnings := (process_font_loop (fun _ => none) [0]).2,
       written := [optimize_output_name "f.ttf"] } : OptRun).written.length = 1 ∧
    ({ processed := (merge_loop (fun _ => true) (pySorted ["u0041.svg"])).1,
       errors := (merge_loop (fun _ => true) (pySorted ["u0041.svg"])).2.1,
       glyphs := (merge_loop (fun _ => true) (pySorted ["u0041.svg"])).2.2,
       written := ["o.svg"] } : MergeResult).written.length = 1 := by
  have h := c7_single_output ["in.ttf"] (fun _ => {})
    { input_font := "in.ttf" }
    (convert_font ["in.ttf"] (fun _ => {}) "in.ttf" none "woff2" none none none)
    (fun _ => none) true "f.ttf" (some [0])
    { trace := (process_font_loop (fun _ => none) [0]).1,
      warnings := (process_font_loop (fun _ => none) [0]).2,
      written := [optimize_output_name "f.ttf"] }
    ["u0041.svg"] (fun _ => true) true "o.svg"
    { processed := (merge_loop (fun _ => true) (pySorted ["u0041.svg"])).1,
      errors := (merge_loop (fun _ => true) (pySorted ["u0041.svg"])).2.1,
      glyphs := (merge_loop (fun _ => true) (pySorted ["u0041.svg"])).2.2,
      written := ["o.svg"] }
  exact ⟨h.1 rfl (by decide), h.2.1 rfl, h.2.2 rfl⟩

theorem merge_loop_spec (glyphOk : String → Bool) : ∀ files : List String,
    merge_loop glyphOk files
      = ((files.filter (svgProcessedOk glyphOk)).length,
         (files.filter (svgFailed glyphOk)).length,
         (files.filter (svgProcessedOk glyphOk)).map
           (fun f => ((svg_codepoint f).getD 0, f))) := by
  intro files
  induction files with
  | nil => rfl
  | cons f rest ih =>
    simp only [merge_loop, ih]
    by_cases hend : pyEndsWith f ".svg"
    · cases hcp : svg_codepoint f with
      | some v =>
        by_cases hok : glyphOk f
        · simp [svgProcessedOk, svgFailed, hend, hcp, hok, List.filter_cons]
        · simp [svgProcessedOk, svgFailed, hend, hcp, hok, List.filter_cons]
      | none => simp [svgProcessedOk, svgFailed, hend, hcp, List.filter_cons]
    · simp [svgProcessedOk, svgFailed, hend, List.filter_cons]

theorem svg_partition (glyphOk : String → Bool) : ∀ files : List String,
    (files.filter (svgProcessedOk glyphOk)).length
      + (files.filter (svgFailed glyphOk)).length
      = (files.filter (fun f => pyEndsWith f ".svg")).length := by
  intro files
  induction files with
  | nil => rfl
  | cons f rest ih =>
    by_cases hend : pyEndsWith f ".svg"
    · by_cases hc : ((svg_codepoint f).isSome && glyphOk f) = true
      · simp only [svgProcessedOk, svgFailed, List.filter_cons, hend, hc]
        simp [ih]
        omega
      · simp only [svgProcessedOk, svgFailed, List.filter_cons, hend,
          eq_false_of_ne_true hc]
        simp [ih]
        omega
    · simp only [svgProcessedOk, svgFailed, List.filter_cons,
        eq_false_of_ne_true hend]
      simpa using ih

theorem insertStr_perm (x : String) :
    ∀ l : List String, (insertStr x l).Perm (x :: l) := by
  intro l
  induction l with
  | nil => exact List.Perm.refl _
  | cons y ys ih =>
    unfold insertStr
    by_cases h : x ≤ y
    · rw [if_pos h]
    · rw [if_neg h]
      exact (List.Perm.cons y ih).trans (List.Perm.swap x y ys)

theorem pySorted_perm : ∀ l : List String, (pySorted l).Perm l := by
  intro l
  induction l with
  | nil => exact List.Perm.refl _
  | cons x xs ih =>
    exact (insertStr_perm x (pySorted xs)).trans (List.Perm.cons x ih)

/-- C9 counterexample: for the listing entry `0.svga.svg` the remainder the
claim describes (`u` deletion, then only the suffix `.svg`) is `0.svga`,
which is not valid hexadecimal, so the claim predicts an error and a
skipped file; the code instead deletes every occurrence of `.svg`, parses
`0a`, processes the file with no error and creates a glyph at codepoint
10. -/
theorem c9_suffix_counterexample :
    claim_remainder "0.svga.svg" = "0.svga" ∧
    int16? "0.svga" = none ∧
    create_svg_font true ["0.svga.svg"] (fun _ => true) true "out.svg"
      = Except.ok { processed := 1, errors := 0,
                    glyphs := [(10, "0.svga.svg")], written := ["out.svg"] } := by
  exact ⟨by decide, by decide, rfl⟩

/-- C9 amended: merge_svg_font.py considers only `.svg` entries, derives
each codepoint by deleting every occurrence of `u` and every occurrence of
`.svg` (not only the suffix) and parsing the remainder as hexadecimal; a
non-parsing remainder increments the error counter and skips the file, and
processed plus errors equals the number of `.svg` files attempted. -/
theorem c9_amended_codepoint_derivation :
    ∀ (files : List String) (glyphOk : String → Bool) (out : String),
    ∃ r, create_svg_font true files glyphOk true out = Except.ok r ∧
      r.processed = (files.filter (svgProcessedOk glyphOk)).length ∧
      r.errors = (files.filter (svgFailed glyphOk)).length ∧
      r.processed + r.errors
        = (files.filter (fun f => pyEndsWith f ".svg")).length ∧
      r.glyphs = ((pySorted files).filter (svgProcessedOk glyphOk)).map
        (fun f => ((svg_codepoint f).getD 0, f)) ∧
      (∀ f, svg_codepoint f
        = int16? (pyReplace (pyReplace f "u" "") ".svg" "")) := by
  intro files glyphOk out
  have hperm := pySorted_perm files
  have hfilterP := (hperm.filter (svgProcessedOk glyphOk)).length_eq
  have hfilterQ := (hperm.filter (svgFailed glyphOk)).length_eq
  refine ⟨_, rfl, ?_, ?_, ?_, ?_, fun f => rfl⟩
  · show (merge_loop glyphOk (pySorted files)).1 = _
    rw [merge_loop_spec glyphOk (pySorted files)]
    exact hfilterP
  · show (merge_loop glyphOk (pySorted files)).2.1 = _
    rw [merge_loop_spec glyphOk (pySorted files)]
    exact hfilterQ
  · show (merge_loop glyphOk (pySorted files)).1
        + (merge_loop glyphOk (pySorted files)).2.1 = _
    rw [merge_loop_spec glyphOk (pySorted files)]
    show (List.filter _ _).length + (List.filter _ _).length = _
    rw [hfilterP, hfilterQ]
    exact svg_partition glyphOk files
  · show (merge_loop glyphOk (pySorted files)).2.2 = _
    rw [merge_loop_spec glyphOk (pySorted files)]

theorem formatCp_head (c : Nat) : ∃ w, (formatCp c).data = 'U' :: w := ⟨_, rfl⟩

theorem joinComma_cons_data (x : String) (xs : List String) :
    ∃ z, (joinComma (x :: xs)).data = x.data ++ z := by
  cases xs with
  | nil =>
    refine ⟨[], ?_⟩
    show x.data = x.data ++ []
    simp
  | cons y r =>
    refine ⟨[',', ' '] ++ (joinComma (y :: r)).data, ?_⟩
    have h : (joinComma (x :: y :: r)).data
        = (x.data ++ [',', ' ']) ++ (joinComma (y :: r)).data := rfl
    rw [h, List.append_assoc]

theorem data_append_head (a b : String) (w : List Char) (h : a.data = 'U' :: w) :
    (a ++ b).data = 'U' :: (w ++ b.data) := by
  show a.data ++ b.data = _
  rw [h]
  rfl

theorem ne_wu_of_head (a : String) (w : List Char) (h : a.data = 'U' :: w) :
    a ≠ "无" := by
  intro he
  rw [he] at h
  have h2 : '无' :: ([] : List Char) = 'U' :: w := h
  injection h2 with h3 _
  exact absurd h3 (by decide)

theorem format_codepoints_ne_wu (s : Finset Nat) (hs : s ≠ ∅) :
    font_cmap_compare.format_codepoints s ≠ "无" := by
  have hlen : (s.sort (· ≤ ·)).length = s.card := Finset.length_sort (· ≤ ·)
  have hpos : 0 < s.card := Finset.card_pos.mpr (Finset.nonempty_iff_ne_empty.mpr hs)
  obtain ⟨c, cs, hcons⟩ : ∃ c cs, s.sort (· ≤ ·) = c :: cs := by
    cases h : s.sort (· ≤ ·) with
    | nil => rw [h] at hlen; simp at hlen; omega
    | cons c cs => exact ⟨c, cs, rfl⟩
  simp only [font_cmap_compare.format_codepoints]
  rw [if_neg hs]
  by_cases hlarge : (s.sort (· ≤ ·)).length > 20
  · rw [if_pos hlarge, hcons]
    have htake : (c :: cs).take 10 = c :: cs.take 9 := rfl
    rw [htake]
    obtain ⟨z1, hz1⟩ := joinComma_cons_data (formatCp c) ((cs.take 9).map formatCp)
    obtain ⟨w, hw⟩ := formatCp_head c
    have hj : (joinComma ((c :: cs.take 9).map formatCp)).data = 'U' :: (w ++ z1) := by
      show (joinComma (formatCp c :: (cs.take 9).map formatCp)).data = _
      rw [hz1, hw]
      rfl
    exact ne_wu_of_head _ _
      (data_append_head _ _ _ (data_append_head _ _ _
        (data_append_head _ _ _ (data_append_head _ _ _ hj))))
  · rw [if_neg hlarge, hcons]
    obtain ⟨z1, hz1⟩ := joinComma_cons_data (formatCp c) (cs.map formatCp)
    obtain ⟨w, hw⟩ := formatCp_head c
    apply ne_wu_of_head _ (w ++ z1)
    show (joinComma (formatCp c :: cs.map formatCp)).data = _
    rw [hz1, hw]
    rfl

/-- C10: `format_codepoints` yields `无` exactly on the empty set; a
non-empty set of at most 20 codepoints is listed fully, in ascending order,
each formatted by the `U+XXXX` formatter; a set of more than 20 codepoints
is shown as its 10 smallest members, a marker holding the count minus 20,
and its 10 largest members, everything in ascending order. -/
theorem c10_format_codepoints_spec :
    ∀ (s t : Finset Nat),
    (font_cmap_compare.format_codepoints s = "无" ↔ s = ∅) ∧
    (s ≠ ∅ → s.card ≤ 20 →
      font_cmap_compare.format_codepoints s
        = joinComma ((s.sort (· ≤ ·)).map formatCp) ∧
      List.Sorted (· ≤ ·) (s.sort (· ≤ ·)) ∧
      (∀ x, x ∈ s.sort (· ≤ ·) ↔ x ∈ s)) ∧
    (t.card > 20 →
      font_cmap_compare.format_codepoints t
        = joinComma (((t.sort (· ≤ ·)).take 10).map formatCp)
          ++ ", ... (" ++ toString (t.card - 20) ++ "更多), "
          ++ joinComma (((t.sort (· ≤ ·)).drop (t.card - 10)).map formatCp) ∧
      List.Sorted (· ≤ ·) (t.sort (· ≤ ·)) ∧
      (∀ x, x ∈ t.sort (· ≤ ·) ↔ x ∈ t) ∧
      ((t.sort (· ≤ ·)).take 10).length = 10 ∧
      ((t.sort (· ≤ ·)).drop (t.card - 10)).length = 10 ∧
      (∀ x ∈ (t.sort (· ≤ ·)).take 10, ∀ y ∈ (t.sort (· ≤ ·)).drop 10, x ≤ y) ∧
      (∀ y ∈ (t.sort (· ≤ ·)).drop (t.card - 10),
        ∀ x ∈ (t.sort (· ≤ ·)).take (t.card - 10), x ≤ y)) := by
  intro s t
  refine ⟨?_, ?_, ?_⟩
  · constructor
    · intro h
      by_contra hne
      exact absurd h (format_codepoints_ne_wu s hne)
    · intro h
      subst h
      rfl
  · intro hne hcard
    have hlen : (s.sort (· ≤ ·)).length = s.card := Finset.length_sort (· ≤ ·)
    have hnl : ¬ ((s.sort (· ≤ ·)).length > 20) := by omega
    refine ⟨?_, Finset.sort_sorted _ _, fun x => Finset.mem_sort _⟩
    simp only [font_cmap_compare.format_codepoints]
    rw [if_neg hne, if_neg hnl]
  · intro hcard
    have hlen : (t.sort (· ≤ ·)).length = t.card := Finset.length_sort (· ≤ ·)
    have hne : t ≠ ∅ := by
      intro h
      rw [h] at hcard
      simp at hcard
    have hl : (t.sort (· ≤ ·)).length > 20 := by omega
    refine ⟨?_, Finset.sort_sorted _ _, fun x => Finset.mem_sort _, ?_, ?_, ?_, ?_⟩
    · simp only [font_cmap_compare.format_codepoints]
      rw [if_neg hne, if_pos hl, hlen]
    · rw [List.length_take, hlen]
      omega
    · rw [List.length_drop, hlen]
      omega
    · have hp : List.Pairwise (· ≤ ·)
          ((t.sort (· ≤ ·)).take 10 ++ (t.sort (· ≤ ·)).drop 10) := by
        rw [List.take_append_drop]
        exact Finset.sort_sorted _ _
      exact (List.pairwise_append.mp hp).2.2
    · have hp : List.Pairwise (· ≤ ·)
          ((t.sort (· ≤ ·)).take (t.card - 10)
            ++ (t.sort (· ≤ ·)).drop (t.card - 10)) := by
        rw [List.take_append_drop]
        exact Finset.sort_sorted _ _
      intro y hy x hx
      exact (List.pairwise_append.mp hp).2.2 x hx y hy

/-- Witness for C10 at the singleton set `{65}` (small case) and at
`Finset.range 21` (more than 20 codepoints). -/
theorem c10_format_codepoints_spec_witness :
    (font_cmap_compare.format_codepoints {65} = "无" ↔ ({65} : Finset Nat) = ∅) ∧
    (font_cmap_compare.format_codepoints {65}
        = joinComma ((({65} : Finset Nat).sort (· ≤ ·)).map formatCp) ∧
      List.Sorted (· ≤ ·) (({65} : Finset Nat).sort (· ≤ ·)) ∧
      (∀ x, x ∈ ({65} : Finset Nat).sort (· ≤ ·) ↔ x ∈ ({65} : Finset Nat))) ∧
    (font_cmap_compare.format_codepoints (Finset.range 21)
        = joinComma ((((Finset.range 21).sort (· ≤ ·)).take 10).map formatCp)
          ++ ", ... (" ++ toString ((Finset.range 21).card - 20) ++ "更多), "
          ++ joinComma ((((Finset.range 21).sort (· ≤ ·)).drop
              ((Finset.range 21).card - 10)).map formatCp) ∧
      List.Sorted (· ≤ ·) ((Finset.range 21).sort (· ≤ ·)) ∧
      (∀ x, x ∈ (Finset.range 21).sort (· ≤ ·) ↔ x ∈ Finset.range 21) ∧
      (((Finset.range 21).sort (· ≤ ·)).take 10).length = 10 ∧
      (((Finset.range 21).sort (· ≤ ·)).drop
          ((Finset.range 21).card - 10)).length = 10 ∧
      (∀ x ∈ ((Finset.range 21).sort (· ≤ ·)).take 10,
        ∀ y ∈ ((Finset.range 21).sort (· ≤ ·)).drop 10, x ≤ y) ∧
      (∀ y ∈ ((Finset.range 21).sort (· ≤ ·)).drop ((Finset.range 21).card - 10),
        ∀ x ∈ ((Finset.range 21).sort (· ≤ ·)).take ((Finset.range 21).card - 10),
          x ≤ y)) := by
  have h := c10_format_codepoints_spec {65} (Finset.range 21)
  exact ⟨h.1, h.2.1 (by decide) (by decide), h.2.2 (by decide)⟩
